import Mathlib

/-!
# Verification of `ovos_color_parser` (`src/ovos_color_parser/__init__.py`)

A shallow embedding of the color data model, the `colorsys` conversions the
source delegates to, the spectral interpolation table, the descriptor-driven
attribute adjustment, the weighted color averaging, the Kelvin→RGB formula and
the fuzzy description-resolution pipeline, together with theorems settling the
frozen claims about them.

Conventions of the embedding:
* Python machine floats are modelled as exact arithmetic over a linear ordered
  field `K`; the computable claims are settled at `K = ℚ`, the parts of the
  source that use `math.sin`/`math.cos`/`math.atan2`/`math.log`/`math.pow`
  are settled at `K = ℝ`.
* Python `int(x)` (truncation toward zero) is `pytrunc`, Python `x % y` for a
  positive float divisor is `pymod`.
* Python functions that can raise are embedded as `Except String`; the string
  is the message (or exception class) of the `raise` they model.
* The external oracles the spec declares out of scope (the string-similarity
  scorer `fuzzy_match` and the perceptual distance `deltaE`) are parameters.
-/

/-- Python `int(x)` for a real/float operand: truncation toward zero. -/
def pytrunc {K : Type} [LinearOrderedField K] [FloorRing K] (x : K) : ℤ :=
  if 0 ≤ x then ⌊x⌋ else ⌈x⌉

/-- Python `x % y` on floats for the divisors used by the source (`1.0`,
`360`), which are positive: the result is `x - y * ⌊x / y⌋`, lying in
`[0, y)`. -/
def pymod {K : Type} [LinearOrderedField K] [FloorRing K] (x y : K) : K :=
  x - y * ⌊x / y⌋

section PythonStrings

/-- Python `str.strip(chars)`: drop the characters of `chars` from both ends. -/
def pyStrip (chars : List Char) (s : String) : String :=
  let l := s.data.dropWhile (chars.contains ·)
  String.mk ((l.reverse.dropWhile (chars.contains ·)).reverse)

/-- Python `str.strip()` (default whitespace set). -/
def pyStripWs (s : String) : String :=
  pyStrip [' ', '\t', '\n', '\r', '\x0b', '\x0c'] s

/-- Python `str.lower()` restricted to the ASCII casing used by the resources. -/
def pyLower (s : String) : String :=
  String.mk (s.data.map Char.toLower)

/-- `_norm` of the source (line 737): lowercase, replace `-`/`_` by a space and
strip the edge punctuation set `" ,.!\n:;"`. -/
def pyNorm (s : String) : String :=
  pyStrip [' ', ',', '.', '!', '\n', ':', ';']
    (String.mk ((pyLower s).data.map
      (fun c => if c = '-' ∨ c = '_' then ' ' else c)))

/-- Python `word in text` substring membership. -/
def pySubstr (word text : String) : Bool :=
  decide (word.data <:+: text.data)

/-- Python `str.title()` on the ASCII letters used here: a letter is upper-cased
when it does not follow another letter, lower-cased otherwise. -/
def pyTitle (s : String) : String :=
  String.mk ((s.data.foldl
    (fun (acc : List Char × Bool) c =>
      if c.isAlpha then
        (acc.1 ++ [if acc.2 then c.toLower else c.toUpper], true)
      else (acc.1 ++ [c], false)) ([], false)).1)

/-- Value of one hexadecimal digit, `none` on a non-hex character
(Python `int(_, 16)` raises `ValueError` there). -/
def hexDigitVal (c : Char) : Option ℕ :=
  if '0' ≤ c ∧ c ≤ '9' then some (c.toNat - '0'.toNat)
  else if 'a' ≤ c ∧ c ≤ 'f' then some (c.toNat - 'a'.toNat + 10)
  else if 'A' ≤ c ∧ c ≤ 'F' then some (c.toNat - 'A'.toNat + 10)
  else none

/-- Python `int(cs, 16)` on a list of characters: empty or non-hex input
raises `ValueError`. -/
def parseHexNat : List Char → Except String ℕ
  | [] => .error "ValueError"
  | cs =>
    cs.foldl
      (fun acc c =>
        match acc, hexDigitVal c with
        | .ok n, some d => .ok (16 * n + d)
        | .ok _, none => .error "ValueError"
        | .error e, _ => .error e)
      (.ok 0)

/-- Python slice `l[i:j]` on a list of characters. -/
def pySlice (l : List Char) (i j : ℕ) : List Char :=
  (l.drop i).take (j - i)

end PythonStrings

section ColorModel

variable {K : Type} [LinearOrderedField K] [FloorRing K]

/-- `sRGBAColor` dataclass (source lines 48–56): channels `r g b` and alpha
`a` (default 255), optional name/description.  The Python fields are typed
`int` but the descriptor-adjustment code assigns float values to them, so the
channels are carried in `K`. -/
structure sRGBAColor (K : Type) where
  r : K
  g : K
  b : K
  a : K
  name : Option String
  description : Option String
  deriving DecidableEq

/-- The validating constructor: `sRGBAColor.__post_init__` (lines 98–105)
checks each of `r`, `g`, `b` against `[0, 255]` (the `r` condition is written
twice in the source, faithfully mirrored) and never inspects `a`. -/
def sRGBAColor.mk? (r g b a : K) (name description : Option String) :
    Except String (sRGBAColor K) :=
  if ¬(0 ≤ r ∧ r ≤ 255) ∨ ¬(0 ≤ r ∧ r ≤ 255) then
    .error "RGB values must be in the range 0 to 255"
  else if ¬(0 ≤ g ∧ g ≤ 255) ∨ ¬(0 ≤ g ∧ g ≤ 255) then
    .error "RGB values must be in the range 0 to 255"
  else if ¬(0 ≤ b ∧ b ≤ 255) ∨ ¬(0 ≤ b ∧ b ≤ 255) then
    .error "RGB values must be in the range 0 to 255"
  else .ok ⟨r, g, b, a, name, description⟩

/-- Number of decimal digits Python prints for a natural number. -/
def decDigits (n : ℕ) : ℕ := (Nat.toDigits 10 n).length

/-- Decimal-digit concatenation: the number whose decimal digits are those of
`a` followed by those of `b` (the value of `int(f"{a}{b}")`). -/
def decConcat (a b : ℕ) : ℕ := a * 10 ^ decDigits b + b

/-- `sRGBAColor.__hash__` (source lines 58–59): `int(f"{self.r}{self.g}{self.b}")`,
i.e. the integer formed by concatenating the decimal digit strings of the three
channels (the channels of every hashed color are nonnegative integers). -/
def sRGBAColor.hashPy (c : sRGBAColor K) : ℕ :=
  decConcat (decConcat (pytrunc c.r).toNat (pytrunc c.g).toNat) (pytrunc c.b).toNat

/-- `HSVColor` dataclass (lines 108–114): integer hue, `s`/`v` in `K`. -/
structure HSVColor (K : Type) where
  h : ℤ
  s : K
  v : K
  name : Option String
  description : Option String
  deriving DecidableEq

/-- `HSVColor.__post_init__` (lines 116–121): hue checked against the closed
interval `[0, 360]`, saturation and value against `[0, 1]`. -/
def HSVColor.mk? (h : ℤ) (s v : K) (name description : Option String) :
    Except String (HSVColor K) :=
  if ¬(0 ≤ h ∧ h ≤ 360) then
    .error "Hue values must be in the range 0 to 360"
  else if ¬(0 ≤ s ∧ s ≤ 1) ∨ ¬(0 ≤ v ∧ v ≤ 1) then
    .error "Saturation and Value must be in the range 0 to 1"
  else .ok ⟨h, s, v, name, description⟩

/-- `HLSColor` dataclass (lines 147–153). -/
structure HLSColor (K : Type) where
  h : ℤ
  l : K
  s : K
  name : Option String
  description : Option String
  deriving DecidableEq

/-- `HLSColor.__post_init__` (lines 155–160): hue checked against the closed
interval `[0, 360]`, saturation and luminance against `[0, 1]`. -/
def HLSColor.mk? (h : ℤ) (l s : K) (name description : Option String) :
    Except String (HLSColor K) :=
  if ¬(0 ≤ h ∧ h ≤ 360) then
    .error "Hue values must be in the range 0 to 360"
  else if ¬(0 ≤ s ∧ s ≤ 1) ∨ ¬(0 ≤ l ∧ l ≤ 1) then
    .error "Saturation and Luminance must be in the range 0 to 1"
  else .ok ⟨h, l, s, name, description⟩

end ColorModel

section Colorsys

variable {K : Type} [LinearOrderedField K] [FloorRing K]

/-- `colorsys.rgb_to_hsv` on normalized channels. -/
def rgbToHsv (r g b : K) : K × K × K :=
  let maxc := max r (max g b)
  let minc := min r (min g b)
  let v := maxc
  if minc = maxc then (0, 0, v)
  else
    let rangec := maxc - minc
    let s := rangec / maxc
    let rc := (maxc - r) / rangec
    let gc := (maxc - g) / rangec
    let bc := (maxc - b) / rangec
    let h0 :=
      if r = maxc then bc - gc
      else if g = maxc then 2 + rc - bc
      else 4 + gc - rc
    (pymod (h0 / 6) 1, s, v)

/-- `colorsys.hsv_to_rgb`.  After `i = int(h*6) % 6` the six-way dispatch is
total; the source's unreachable fall-through (`# Cannot get here`) is the final
`(0, 0, 0)` arm. -/
def hsvToRgb (h s v : K) : K × K × K :=
  if s = 0 then (v, v, v)
  else
    let i0 : ℤ := pytrunc (h * 6)
    let f := h * 6 - (i0 : K)
    let p := v * (1 - s)
    let q := v * (1 - s * f)
    let t := v * (1 - s * (1 - f))
    let i := i0 % 6
    if i = 0 then (v, t, p)
    else if i = 1 then (q, v, p)
    else if i = 2 then (p, v, t)
    else if i = 3 then (p, q, v)
    else if i = 4 then (t, p, v)
    else if i = 5 then (v, p, q)
    else (0, 0, 0)

/-- `colorsys.rgb_to_hls`. -/
def rgbToHls (r g b : K) : K × K × K :=
  let maxc := max r (max g b)
  let minc := min r (min g b)
  let l := (minc + maxc) / 2
  if minc = maxc then (0, l, 0)
  else
    let s :=
      if l ≤ 1 / 2 then (maxc - minc) / (maxc + minc)
      else (maxc - minc) / (2 - maxc - minc)
    let rc := (maxc - r) / (maxc - minc)
    let gc := (maxc - g) / (maxc - minc)
    let bc := (maxc - b) / (maxc - minc)
    let h0 :=
      if r = maxc then bc - gc
      else if g = maxc then 2 + rc - bc
      else 4 + gc - rc
    (pymod (h0 / 6) 1, l, s)

/-- `colorsys._v`, the helper of `hls_to_rgb`. -/
def hlsV (m1 m2 hue : K) : K :=
  let hue := pymod hue 1
  if hue < 1 / 6 then m1 + (m2 - m1) * hue * 6
  else if hue < 1 / 2 then m2
  else if hue < 2 / 3 then m1 + (m2 - m1) * (2 / 3 - hue) * 6
  else m1

/-- `colorsys.hls_to_rgb`. -/
def hlsToRgb (h l s : K) : K × K × K :=
  if s = 0 then (l, l, l)
  else
    let m2 := if l ≤ 1 / 2 then l * (1 + s) else l + s - l * s
    let m1 := 2 * l - m2
    (hlsV m1 m2 (h + 1 / 3), hlsV m1 m2 h, hlsV m1 m2 (h - 1 / 3))

end Colorsys

section Conversions

variable {K : Type} [LinearOrderedField K] [FloorRing K]

/-- `sRGBAColor.as_hsv` (lines 75–83): normalize to `[0,1]`, convert and
truncate the hue to integer degrees.  The constructor's range check always
passes on these values, so the structure is built directly. -/
def sRGBAColor.as_hsv (c : sRGBAColor K) : HSVColor K :=
  let hsv := rgbToHsv (c.r / 255) (c.g / 255) (c.b / 255)
  ⟨pytrunc (hsv.1 * 360), hsv.2.1, hsv.2.2, c.name, c.description⟩

/-- `sRGBAColor.as_hls` (lines 65–73): note the `min(1, s)` guard of the
source. -/
def sRGBAColor.as_hls (c : sRGBAColor K) : HLSColor K :=
  let hls := rgbToHls (c.r / 255) (c.g / 255) (c.b / 255)
  ⟨pytrunc (hls.1 * 360), hls.2.1, min 1 hls.2.2, c.name, c.description⟩

/-- `HSVColor.as_rgb` (lines 127–132): convert and truncate each channel. -/
def HSVColor.as_rgb (c : HSVColor K) : sRGBAColor K :=
  let rgb := hsvToRgb ((c.h : K) / 360) c.s c.v
  ⟨((pytrunc (rgb.1 * 255) : ℤ) : K), ((pytrunc (rgb.2.1 * 255) : ℤ) : K),
    ((pytrunc (rgb.2.2 * 255) : ℤ) : K), 255, c.name, c.description⟩

/-- `HLSColor.as_rgb` (lines 166–171). -/
def HLSColor.as_rgb (c : HLSColor K) : sRGBAColor K :=
  let rgb := hlsToRgb ((c.h : K) / 360) c.l c.s
  ⟨((pytrunc (rgb.1 * 255) : ℤ) : K), ((pytrunc (rgb.2.1 * 255) : ℤ) : K),
    ((pytrunc (rgb.2.2 * 255) : ℤ) : K), 255, c.name, c.description⟩

/-- The `RGB→HSV→RGB` round trip of the spec's §8, on integer channels. -/
def hsvRoundTrip (r g b : ℤ) : ℚ × ℚ × ℚ :=
  let c : sRGBAColor ℚ := ⟨(r : ℚ), (g : ℚ), (b : ℚ), 255, none, none⟩
  let c' := c.as_hsv.as_rgb
  (c'.r, c'.g, c'.b)

/-- The `RGB→HLS→RGB` round trip of the spec's §8, on integer channels. -/
def hlsRoundTrip (r g b : ℤ) : ℚ × ℚ × ℚ :=
  let c : sRGBAColor ℚ := ⟨(r : ℚ), (g : ℚ), (b : ℚ), 255, none, none⟩
  let c' := c.as_hls.as_rgb
  (c'.r, c'.g, c'.b)

end Conversions

section Spectral

/-- `HueRange` dataclass (lines 259–264): integer hue bounds with an optional
name and hex approximation. -/
structure HueRange where
  minHue : ℤ
  maxHue : ℤ
  name : Option String
  hexApproximation : Option String
  deriving DecidableEq

/-- `HueRange.hue` (lines 266–268): `int((min + max) / 2)`. -/
def HueRange.hue (hr : HueRange) : ℤ :=
  pytrunc (((hr.minHue : ℚ) + (hr.maxHue : ℚ)) / 2)

/-- `SpectralColor` dataclass (lines 188–195): a wavelength range in
nanometers, optional hex approximation, optional hue range, optional name. -/
structure SpectralColor where
  wavelenNmMin : ℤ
  wavelenNmMax : ℤ
  hexApproximation : Option String
  hueApproximation : Option HueRange
  name : Option String
  deriving DecidableEq

/-- A `SpectralColorPalette` is its ordered list of colors. -/
def SpectralColorPalette : Type := List SpectralColor

/-- Whether `w` falls within the entry's wavelength range (line 208). -/
def SpectralColor.containsW (ct : SpectralColor) (w : ℤ) : Prop :=
  ct.wavelenNmMin ≤ w ∧ w ≤ ct.wavelenNmMax

instance (ct : SpectralColor) (w : ℤ) : Decidable (ct.containsW w) := by
  unfold SpectralColor.containsW; infer_instance

/-- The value returned for the first palette entry containing `w`
(lines 209–217): the midpoint hue when the wavelength span is degenerate,
otherwise the truncated linear interpolation of the hue bounds by `w`'s
position in the span.  When the entry carries no hue range the Python
attribute accesses raise (`AttributeError`). -/
def SpectralColor.entryHue (ct : SpectralColor) (w : ℤ) : Except String ℤ :=
  match ct.hueApproximation with
  | none => .error "AttributeError"
  | some hr =>
    let span := ct.wavelenNmMax - ct.wavelenNmMin
    if span = 0 then .ok hr.hue
    else
      .ok (pytrunc ((hr.minHue : ℚ) +
        (((w : ℚ) - (ct.wavelenNmMin : ℚ)) / (span : ℚ)) *
          ((hr.maxHue : ℚ) - (hr.minHue : ℚ))))

/-- `SpectralColor._wavelength_to_hue` (lines 201–220): scan the palette in
order, return the value of the first entry whose wavelength range contains
`w`, raise `ValueError` when no entry does. -/
def wavelengthToHue (w : ℤ) : List SpectralColor → Except String ℤ
  | [] => .error "Wavelength is out of the defined spectral color palette."
  | ct :: rest =>
    if ct.containsW w then ct.entryHue w
    else wavelengthToHue w rest

/-- `ISCCNBSSpectralColorTerms` (lines 418–451), the reference palette used by
the source's spectral conversions. -/
def ISCCNBSSpectralColorTerms : List SpectralColor :=
  [⟨380, 430, some "#7F00FF", some ⟨249, 250, none, none⟩, some "Violet"⟩,
   ⟨440, 480, some "#3F00FF", some ⟨226, 247, none, none⟩, some "Blue"⟩,
   ⟨490, 490, some "#00FFFF", some ⟨190, 190, none, none⟩, some "Blue-Green"⟩,
   ⟨500, 540, some "#00FF00", some ⟨113, 143, none, none⟩, some "Green"⟩,
   ⟨550, 570, some "#88FF00", some ⟨62, 104, none, none⟩, some "Yellow-Green"⟩,
   ⟨580, 580, some "#FFFF00", some ⟨28, 28, none, none⟩, some "Yellow"⟩,
   ⟨590, 600, some "#FF8800", some ⟨7, 14, none, none⟩, some "Orange"⟩,
   ⟨610, 730, some "#FF0000", some ⟨0, 5, none, none⟩, some "Red"⟩]

end Spectral

section Adjectives

/-- The descriptor-bucket mapping of `color_descriptors.json`: four axes with
four severity tiers of keyword lists each, the keys `_adjust_color_attributes`
reads. -/
structure ColorAdjectives where
  veryHighSaturation : List String
  highSaturation : List String
  lowSaturation : List String
  veryLowSaturation : List String
  veryHighBrightness : List String
  highBrightness : List String
  lowBrightness : List String
  veryLowBrightness : List String
  veryHighOpacity : List String
  highOpacity : List String
  lowOpacity : List String
  veryLowOpacity : List String
  veryHighTemperature : List String
  highTemperature : List String
  lowTemperature : List String
  veryLowTemperature : List String

/-- A bucket with no keywords at all. -/
def ColorAdjectives.empty : ColorAdjectives :=
  ⟨[], [], [], [], [], [], [], [], [], [], [], [], [], [], [], []⟩

/-- `any(word.lower() in description for word in words)` (the tier tests of
`_adjust_color_attributes`). -/
def containsAny (words : List String) (description : String) : Bool :=
  words.any (fun w => pySubstr (pyLower w) description)

variable {K : Type} [LinearOrderedField K] [FloorRing K]

/-- `_adjust_color_attributes` (lines 651–699) on an `HLSColor` operand (the
pipeline always passes one, so the `isinstance` dispatch of line 652 is the
identity).  Tier order and `elif` exclusivity are as in the source:

* saturation: first matching tier adds `±0.2`/`±0.1` to `s`, clamped to `[0,1]`;
* brightness: first matching tier adds `±0.2`/`±0.1` to `l`, clamped to `[0,1]`;
* opacity: the source reads `color.a`, an attribute `HLSColor` does not have,
  so any matching opacity tier raises `AttributeError`;
* temperature, applied after `color = color.as_rgb`: the first matching tier
  moves the integer-valued `r`/`g`/`b` channels with `min(1.0, · + 0.1)`,
  `max(0.0, · - 0.05)`, `min(1.0, · + 0.05)` — the clamps of the source keep
  the float constants of the `[0,1]` axes. -/
def adjustColorAttributes (color : HLSColor K) (description : String)
    (adj : ColorAdjectives) : Except String (sRGBAColor K) :=
  let d := pyStripWs (pyLower description)
  let s1 :=
    if containsAny adj.veryHighSaturation d then min 1 (color.s + 2 / 10)
    else if containsAny adj.highSaturation d then min 1 (color.s + 1 / 10)
    else if containsAny adj.lowSaturation d then max 0 (color.s - 1 / 10)
    else if containsAny adj.veryLowSaturation d then max 0 (color.s - 2 / 10)
    else color.s
  let l1 :=
    if containsAny adj.veryHighBrightness d then min 1 (color.l + 2 / 10)
    else if containsAny adj.highBrightness d then min 1 (color.l + 1 / 10)
    else if containsAny adj.lowBrightness d then max 0 (color.l - 1 / 10)
    else if containsAny adj.veryLowBrightness d then max 0 (color.l - 2 / 10)
    else color.l
  if containsAny adj.veryHighOpacity d ∨ containsAny adj.highOpacity d ∨
      containsAny adj.lowOpacity d ∨ containsAny adj.veryLowOpacity d then
    .error "AttributeError"
  else
    let c := HLSColor.as_rgb ⟨color.h, l1, s1, color.name, color.description⟩
    if containsAny adj.veryHighTemperature d then
      .ok ⟨min 1 (c.r + 1 / 10), max 0 (c.g - 1 / 20), c.b, c.a, c.name, c.description⟩
    else if containsAny adj.highTemperature d then
      .ok ⟨min 1 (c.r + 1 / 20), c.g, c.b, c.a, c.name, c.description⟩
    else if containsAny adj.lowTemperature d then
      .ok ⟨c.r, c.g, min 1 (c.b + 1 / 20), c.a, c.name, c.description⟩
    else if containsAny adj.veryLowTemperature d then
      .ok ⟨c.r, c.g, min 1 (c.b + 1 / 10), c.a, c.name, c.description⟩
    else .ok c

end Adjectives

section Averaging

open Real

/-- `math.atan2 y x`, modelled as the argument of the complex number
`x + y·i`; it agrees with the C library `atan2` at every point the averaging
code can reach. -/
noncomputable def atan2 (y x : ℝ) : ℝ := Complex.arg ⟨x, y⟩

/-- `math.radians`. -/
noncomputable def radians (d : ℝ) : ℝ := d * π / 180

/-- `math.degrees`. -/
noncomputable def degrees (r : ℝ) : ℝ := r * 180 / π

/-- The hue computation of `average_colors` (lines 828–830):
`int(math.degrees(math.atan2(sin_sum, cos_sum)) % 360)` with
`sin_sum = Σ sin(radians hᵢ)·wᵢ` and `cos_sum = Σ cos(radians hᵢ)·wᵢ`. -/
noncomputable def avgHue (colors : List (HLSColor ℝ)) (weights : List ℝ) : ℤ :=
  let sinSum := ((colors.zip weights).map
    (fun p => Real.sin (radians (p.1.h : ℝ)) * p.2)).sum
  let cosSum := ((colors.zip weights).map
    (fun p => Real.cos (radians (p.1.h : ℝ)) * p.2)).sum
  pytrunc (pymod (degrees (atan2 sinSum cosSum)) 360)

/-- `average_colors` (lines 818–834) on `HLSColor` inputs (the pipeline's
candidates already are; the `as_hls` coercion of line 819 is the identity
there).  A missing/empty weight list defaults to `1/len(colors)` each; a zero
total weight is Python's `ZeroDivisionError`; the result is built through the
validating `HLSColor` constructor.  The Python repr of the name/weight set in
the description field is abstracted to the fixed prefix text. -/
noncomputable def averageColors (colors : List (HLSColor ℝ))
    (weights : List ℝ) : Except String (HLSColor ℝ) :=
  let ws := if weights.isEmpty then
      colors.map (fun _ => 1 / (colors.length : ℝ))
    else weights
  let total := ws.sum
  if total = 0 then .error "ZeroDivisionError"
  else
    let avgL := ((colors.zip ws).map (fun p => p.1.l * p.2)).sum / total
    let avgS := ((colors.zip ws).map (fun p => p.1.s * p.2)).sum / total
    HLSColor.mk? (avgHue colors ws) avgL avgS none (some "Weighted average")

end Averaging

section Kelvin

open Real

/-- The shared clamp of `convert_K_to_RGB`: the nested `if tmp < 0 / tmp > 255`
chains of the source. -/
noncomputable def kelvinClamp (tmp : ℝ) : ℝ :=
  if tmp < 0 then 0 else if tmp > 255 then 255 else tmp

/-- The message of the source's range check (line 845). -/
def kelvinRangeMsg : String :=
  "color temperature out of range, only values between 1000 and 4000 supported"

/-- `convert_K_to_RGB` (lines 837–893): domain check against `[1000, 40000]`,
then the tanner-helland piecewise channel formulas, each clamped into
`[0, 255]`, assembled through the validating `sRGBAColor` constructor with the
description `f"{colour_temperature}K"`. -/
noncomputable def convert_K_to_RGB (colourTemperature : ℤ) :
    Except String (sRGBAColor ℝ) :=
  if colourTemperature < 1000 ∨ colourTemperature > 40000 then
    .error kelvinRangeMsg
  else
    let t : ℝ := (colourTemperature : ℝ) / 100
    let red : ℝ :=
      if t ≤ 66 then 255
      else kelvinClamp (329.698727446 * (t - 60) ^ (-0.1332047592 : ℝ))
    let green : ℝ :=
      if t ≤ 66 then kelvinClamp (99.4708025861 * Real.log t - 161.1195681661)
      else kelvinClamp (288.1221695283 * (t - 60) ^ (-0.0755148492 : ℝ))
    let blue : ℝ :=
      if t ≥ 66 then 255
      else if t ≤ 19 then 0
      else kelvinClamp (138.5177312231 * Real.log (t - 10) - 305.0447927307)
    sRGBAColor.mk? red green blue 255 none
      (some (toString colourTemperature ++ "K"))

end Kelvin

section Pipeline

variable {K : Type} [LinearOrderedField K] [FloorRing K]

/-- `sRGBAColor.from_hex_str` (lines 89–96): strip an optional leading `#`,
parse the three two-character slices as hexadecimal (short slices or non-hex
characters raise `ValueError`, characters past index 6 are ignored), and build
the color through the validating constructor. -/
def sRGBAColor.fromHexStr (hexStr : String) (name description : Option String) :
    Except String (sRGBAColor K) :=
  let cs := match hexStr.data with
    | '#' :: rest => rest
    | cs => cs
  match parseHexNat (pySlice cs 0 2), parseHexNat (pySlice cs 2 4),
      parseHexNat (pySlice cs 4 6) with
  | .ok r, .ok g, .ok b =>
    sRGBAColor.mk? (r : K) (g : K) (b : K) 255 name description
  | .error e, _, _ => .error e
  | _, .error e, _ => .error e
  | _, _, .error e => .error e

/-- `HLSColor.from_hex_str` (lines 181–183): parse then convert. -/
def HLSColor.fromHexStr (hexStr : String) (name description : Option String) :
    Except String (HLSColor K) :=
  (sRGBAColor.fromHexStr hexStr name description).map sRGBAColor.as_hls

/-- Python `dict[key]` on an association list with distinct keys: `none` is a
`KeyError`. -/
def dictGet (d : List (String × String)) (k : String) : Option String :=
  (d.find? (fun e => e.1 = k)).map (fun e => e.2)

/-- The Aho–Corasick automaton built by `_load_color_automaton` /
`_load_object_automaton` (lines 741–762) holds `_norm(name)` with value
`hex` for every dictionary entry; `automaton.iter(description)` yields the
values of the words occurring in the description as substrings.  The embedding
returns one hex value per dictionary entry whose normalized name occurs
(dictionary order; the per-occurrence multiplicity and end-position ordering
of the scan are not tracked — no claim depends on them). -/
def automatonMatches (dict : List (String × String)) (description : String) :
    List String :=
  (dict.filter (fun e => pySubstr (pyNorm e.2) description)).map (fun e => e.1)

/-- One matching pass of `color_from_description`: for each automaton match,
look the hex up in `lookupDict` (Python raises `KeyError` when absent), score
the found name against the whole description with the similarity oracle, and
build the candidate via `HLSColor.from_hex_str(hex, name)`. -/
def matchPass (sim : String → String → K)
    (matchDict lookupDict : List (String × String)) (description : String) :
    Except String (List (HLSColor K) × List K) := do
  let pairs ← (automatonMatches matchDict description).mapM
    (fun hexStr => do
      let name ← match dictGet lookupDict hexStr with
        | some n => Except.ok n
        | none => Except.error "KeyError"
      let c ← HLSColor.fromHexStr hexStr (some name) none
      Except.ok (c, sim name description))
  Except.ok (pairs.map Prod.fst, pairs.map Prod.snd)

/-- Steps 1–2 of `color_from_description` (lines 774–794) exactly as written:
the first pass matches the *color* automaton and reads names from the color
dictionary; the second pass again loads the *color* automaton
(`_load_color_automaton`, line 787) but reads names from the *object*
dictionary. -/
def collectCandidates (sim : String → String → K)
    (colorDict objDict : List (String × String)) (description : String) :
    Except String (List (HLSColor K) × List K) := do
  let p1 ← matchPass sim colorDict colorDict description
  let p2 ← matchPass sim colorDict objDict description
  Except.ok (p1.1 ++ p2.1, p1.2 ++ p2.2)

/-- The candidate collection as the claim (and §4.4 step 1 of the spec) states
it: the second pass runs the matcher over the *object-name* dictionary. -/
def collectCandidatesClaimed (sim : String → String → K)
    (colorDict objDict : List (String × String)) (description : String) :
    Except String (List (HLSColor K) × List K) := do
  let p1 ← matchPass sim colorDict colorDict description
  let p2 ← matchPass sim objDict objDict description
  Except.ok (p1.1 ++ p2.1, p1.2 ++ p2.2)

/-- `closest_color` (lines 603–606) on RGB options: the first option of
minimal oracle distance (Python's `min` over the insertion-ordered score
dict); an empty option list is Python's `ValueError` from `min`. -/
noncomputable def closestColor (dist : sRGBAColor ℝ → sRGBAColor ℝ → ℝ)
    (c : sRGBAColor ℝ) : List (sRGBAColor ℝ) → Except String (sRGBAColor ℝ)
  | [] => .error "ValueError"
  | o :: os =>
    .ok (os.foldl (fun best x => if dist c x < dist c best then x else best) o)

/-- Replace the name field. -/
def sRGBAColor.withName (c : sRGBAColor ℝ) (n : Option String) : sRGBAColor ℝ :=
  ⟨c.r, c.g, c.b, c.a, n, c.description⟩

/-- Replace the description field. -/
def sRGBAColor.withDescription (c : sRGBAColor ℝ) (d : Option String) :
    sRGBAColor ℝ :=
  ⟨c.r, c.g, c.b, c.a, c.name, d⟩

/-- `color_from_description` (lines 768–815): collect candidates and weights
(two matcher passes), return `None` when there are no candidates, otherwise
average the candidates, apply the descriptor adjustment, title-case the name,
optionally snap to the nearest candidate, and record the verbatim description.
The similarity strategy and the perceptual distance are the external oracles
`sim` and `dist`. -/
noncomputable def colorFromDescription (sim : String → String → ℝ)
    (dist : sRGBAColor ℝ → sRGBAColor ℝ → ℝ)
    (colorDict objDict : List (String × String)) (adjectives : ColorAdjectives)
    (description : String) (castToPalette : Bool) :
    Except String (Option (sRGBAColor ℝ)) := do
  let cw ← collectCandidates sim colorDict objDict description
  if cw.1.isEmpty then
    Except.ok none
  else do
    let c ← averageColors cw.1 cw.2
    let c ← adjustColorAttributes c description adjectives
    let c := c.withName (some (pyTitle description))
    let c ← if castToPalette then
        closestColor dist c (cw.1.map HLSColor.as_rgb)
      else Except.ok c
    Except.ok (some (c.withDescription (some description)))

end Pipeline

/-- Whether an embedded Python call returned normally (did not raise). -/
def isOkE {α : Type} (e : Except String α) : Bool :=
  match e with
  | .ok _ => true
  | .error _ => false

instance exceptDecEq {ε α : Type} [DecidableEq ε] [DecidableEq α] :
    DecidableEq (Except ε α)
  | .ok a, .ok b => decidable_of_iff (a = b) (by simp)
  | .error e, .error f => decidable_of_iff (e = f) (by simp)
  | .ok _, .error _ => isFalse (by simp)
  | .error _, .ok _ => isFalse (by simp)


/-- The amended round-trip property: the triple `t` (a round-tripped RGB
triple) has the same maximum and minimum channel values as `(r, g, b)` and
every component lies between them. -/
def extremesOk (t : ℚ × ℚ × ℚ) (r g b : ℤ) : Prop :=
  max t.1 (max t.2.1 t.2.2) = ((max r (max g b) : ℤ) : ℚ) ∧
  min t.1 (min t.2.1 t.2.2) = ((min r (min g b) : ℤ) : ℚ) ∧
  (((min r (min g b) : ℤ) : ℚ) ≤ t.1 ∧ t.1 ≤ ((max r (max g b) : ℤ) : ℚ)) ∧
  (((min r (min g b) : ℤ) : ℚ) ≤ t.2.1 ∧ t.2.1 ≤ ((max r (max g b) : ℤ) : ℚ)) ∧
  (((min r (min g b) : ℤ) : ℚ) ≤ t.2.2 ∧ t.2.2 ≤ ((max r (max g b) : ℤ) : ℚ))

/-! ## Helper lemmas -/

section Helpers

variable {K : Type} [LinearOrderedField K] [FloorRing K]

theorem pytrunc_eq_floor {x : K} (h : 0 ≤ x) : pytrunc x = ⌊x⌋ :=
  if_pos h

theorem pytrunc_intCast (n : ℤ) : pytrunc ((n : K)) = n := by
  unfold pytrunc
  split <;> simp

theorem pymod_eq_fract (x y : K) (hy : y ≠ 0) :
    pymod x y = y * Int.fract (x / y) := by
  unfold pymod Int.fract
  field_simp

theorem pymod_nonneg (x y : K) (hy : 0 < y) : 0 ≤ pymod x y := by
  rw [pymod_eq_fract x y hy.ne']
  exact mul_nonneg hy.le (Int.fract_nonneg _)

theorem pymod_lt (x y : K) (hy : 0 < y) : pymod x y < y := by
  rw [pymod_eq_fract x y hy.ne']
  calc y * Int.fract (x / y) < y * 1 :=
        (mul_lt_mul_left hy).mpr (Int.fract_lt_one _)
    _ = y := mul_one y

theorem pymod_one_of_mem {x : K} (h0 : 0 ≤ x) (h1 : x < 1) : pymod x 1 = x := by
  unfold pymod
  rw [div_one, Int.floor_eq_zero_iff.mpr ⟨h0, h1⟩]
  simp

theorem pymod_one_shift_down {x : K} (h0 : 1 ≤ x) (h1 : x < 2) :
    pymod x 1 = x - 1 := by
  unfold pymod
  rw [div_one]
  have hfl : ⌊x⌋ = 1 := by
    rw [Int.floor_eq_iff]
    constructor <;> push_cast <;> linarith
  rw [hfl]
  push_cast
  ring

theorem pymod_one_shift_up {x : K} (h0 : -1 ≤ x) (h1 : x < 0) :
    pymod x 1 = x + 1 := by
  unfold pymod
  rw [div_one]
  have hfl : ⌊x⌋ = -1 := by
    rw [Int.floor_eq_iff]
    constructor <;> push_cast <;> linarith
  rw [hfl]
  push_cast
  ring

theorem pytrunc_le_of_le {x : K} {n : ℤ} (h0 : 0 ≤ x) (h : x ≤ (n : K)) :
    pytrunc x ≤ n := by
  rw [pytrunc_eq_floor h0]
  exact (Int.floor_le_floor h).trans_eq (Int.floor_intCast n)

theorem le_pytrunc_of_le {x : K} {n : ℤ} (h0 : 0 ≤ (n : K)) (h : (n : K) ≤ x) :
    n ≤ pytrunc x := by
  rw [pytrunc_eq_floor (h0.trans h)]
  exact (Int.le_floor).mpr h

end Helpers

/-! ## The claims -/

/-- **C2** (code bug evidence).  On the pure-red HLS operand `(h=0, l=1/2, s=1)`
— whose RGB form is `(255, 0, 0)` — a description hitting the
`very_high_temperature` tier makes `_adjust_color_attributes` return the RGB
channels `(1, 0, 0)`: the warm tier's `min(1.0, r + 0.1)` collapses the red
channel from 255 down to 1 instead of increasing it within `[0, 255]`, because
the clamp constants of the `[0,1]` float axes are applied to the 0–255 integer
channels. -/
theorem C2_warm_tier_collapses_red_channel :
    adjustColorAttributes (K := ℚ) ⟨0, 1 / 2, 1, none, none⟩ "hot"
        ⟨[], [], [], [], [], [], [], [], [], [], [], [], ["hot"], [], [], []⟩ =
      .ok ⟨1, 0, 0, 255, none, none⟩ ∧ (1 : ℚ) < 255 := by
  constructor
  · have hnil : ∀ d, containsAny [] d = false := fun _ => rfl
    have hhot : containsAny ["hot"] (pyStripWs (pyLower "hot")) = true := by decide
    unfold adjustColorAttributes
    simp only [hnil, hhot]
    norm_num [HLSColor.as_rgb, hlsToRgb, hlsV, pymod, pytrunc]
  · norm_num

/-- **C3** (code bug evidence).  `sRGBAColor.__hash__` is exactly the
digit-concatenation `int(f"{r}{g}{b}")` the claim rules out: the distinct
colors `(1, 23, 4)` and `(12, 3, 4)` both hash to `1234`. -/
theorem C3_hash_digit_concatenation_collides :
    sRGBAColor.hashPy (⟨1, 23, 4, 255, none, none⟩ : sRGBAColor ℚ) = 1234 ∧
    sRGBAColor.hashPy (⟨12, 3, 4, 255, none, none⟩ : sRGBAColor ℚ) = 1234 ∧
    (⟨1, 23, 4, 255, none, none⟩ : sRGBAColor ℚ) ≠
      ⟨12, 3, 4, 255, none, none⟩ := by
  refine ⟨rfl, rfl, ?_⟩
  intro h
  have := congrArg sRGBAColor.r h
  norm_num at this

/-- **C4** (counterexample).  Hue `360` is accepted by both the `HSVColor` and
`HLSColor` constructors — the `__post_init__` checks use the closed interval
`0 <= h <= 360`, so `h = 360` does not fail as the claim states. -/
theorem C4_hue_360_is_accepted :
    HSVColor.mk? (K := ℚ) 360 (1 / 2) (1 / 2) none none =
      .ok ⟨360, 1 / 2, 1 / 2, none, none⟩ ∧
    HLSColor.mk? (K := ℚ) 360 (1 / 2) (1 / 2) none none =
      .ok ⟨360, 1 / 2, 1 / 2, none, none⟩ := by
  constructor
  · norm_num [HSVColor.mk?]
  · norm_num [HLSColor.mk?]

/-- **C4** (amended).  The `HSVColor` and `HLSColor` constructors accept a hue
`h` exactly when `h` lies in the *closed* interval `[0, 360]` and both float
components lie in `[0, 1]`; any value outside these domains fails with a
`ValueError`. -/
theorem C4_constructor_domains (h : ℤ) (s v : ℚ) :
    (isOkE (HSVColor.mk? h s v none none) = true ↔
      (0 ≤ h ∧ h ≤ 360) ∧ (0 ≤ s ∧ s ≤ 1) ∧ (0 ≤ v ∧ v ≤ 1)) ∧
    (isOkE (HLSColor.mk? h s v none none) = true ↔
      (0 ≤ h ∧ h ≤ 360) ∧ (0 ≤ s ∧ s ≤ 1) ∧ (0 ≤ v ∧ v ≤ 1)) := by
  constructor
  · unfold HSVColor.mk?
    split_ifs with h1 h2
    · simp only [isOkE, Bool.false_eq_true, false_iff]
      tauto
    · simp only [isOkE, Bool.false_eq_true, false_iff]
      tauto
    · simp only [isOkE, true_iff]
      tauto
  · unfold HLSColor.mk?
    split_ifs with h1 h2
    · simp only [isOkE, Bool.false_eq_true, false_iff]
      tauto
    · simp only [isOkE, Bool.false_eq_true, false_iff]
      tauto
    · simp only [isOkE, true_iff]
      tauto

/-- **C10**.  `sRGBAColor.__post_init__` validates only the `r`, `g`, `b`
channels: construction succeeds exactly when each of them lies in `[0, 255]`,
for *every* alpha value — no range check is applied to `a`. -/
theorem C10_alpha_is_never_range_checked (r g b a : ℚ) :
    isOkE (sRGBAColor.mk? r g b a none none) = true ↔
      (0 ≤ r ∧ r ≤ 255) ∧ (0 ≤ g ∧ g ≤ 255) ∧ (0 ≤ b ∧ b ≤ 255) := by
  unfold sRGBAColor.mk?
  split_ifs with h1 h2 h3
  · simp only [isOkE, Bool.false_eq_true, false_iff]
    tauto
  · simp only [isOkE, Bool.false_eq_true, false_iff]
    tauto
  · simp only [isOkE, Bool.false_eq_true, false_iff]
    tauto
  · simp only [isOkE, true_iff]
    tauto


/-- A palette entry that carries a hue range never raises from `entryHue`. -/
theorem entryHue_isOk (ct : SpectralColor) (w : ℤ)
    (h : ct.hueApproximation.isSome = true) : isOkE (ct.entryHue w) = true := by
  unfold SpectralColor.entryHue
  obtain ⟨hr, hhr⟩ := Option.isSome_iff_exists.mp h
  rw [hhr]
  dsimp only
  split_ifs <;> rfl

/-- `_wavelength_to_hue` is the scan for the first entry containing `w`. -/
theorem wavelengthToHue_find (w : ℤ) (p : List SpectralColor) :
    wavelengthToHue w p =
      match p.find? (fun ct => decide (ct.containsW w)) with
      | none => .error "Wavelength is out of the defined spectral color palette."
      | some ct => ct.entryHue w := by
  induction p with
  | nil => rfl
  | cons ct rest ih =>
    by_cases h : ct.containsW w
    · simp [wavelengthToHue, List.find?, h]
    · simp [wavelengthToHue, List.find?, h, ih]

/-- **C7**.  `_wavelength_to_hue(w, palette)`, for palettes whose entries all
carry hue ranges (every palette of the source does): it succeeds exactly when
some entry's wavelength range contains `w`; the scan returns the value of the
first containing entry; a degenerate hue range yields that single hue (whether
or not the wavelength span is degenerate); a non-degenerate wavelength span is
linearly interpolated; on the default ISCC-NBS table the extreme wavelengths
380 and 730 resolve without error while 379 and 731 raise the domain error. -/
theorem C7_wavelength_to_hue :
    (∀ (p : List SpectralColor) (w : ℤ),
        (∀ ct ∈ p, ct.hueApproximation.isSome = true) →
        (isOkE (wavelengthToHue w p) = true ↔ ∃ ct ∈ p, ct.containsW w)) ∧
    (∀ (w : ℤ) (p : List SpectralColor),
        wavelengthToHue w p =
          match p.find? (fun ct => decide (ct.containsW w)) with
          | none => .error "Wavelength is out of the defined spectral color palette."
          | some ct => ct.entryHue w) ∧
    (∀ (ct : SpectralColor) (w : ℤ) (hr : HueRange),
        ct.hueApproximation = some hr → hr.minHue = hr.maxHue →
        ct.entryHue w = .ok hr.minHue) ∧
    (∀ (ct : SpectralColor) (w : ℤ) (hr : HueRange),
        ct.hueApproximation = some hr → ct.wavelenNmMax - ct.wavelenNmMin ≠ 0 →
        ct.entryHue w = .ok (pytrunc ((hr.minHue : ℚ) +
          (((w : ℚ) - (ct.wavelenNmMin : ℚ)) /
              ((ct.wavelenNmMax - ct.wavelenNmMin : ℤ) : ℚ)) *
            ((hr.maxHue : ℚ) - (hr.minHue : ℚ))))) ∧
    wavelengthToHue 380 ISCCNBSSpectralColorTerms = .ok 249 ∧
    wavelengthToHue 730 ISCCNBSSpectralColorTerms = .ok 5 ∧
    isOkE (wavelengthToHue 379 ISCCNBSSpectralColorTerms) = false ∧
    isOkE (wavelengthToHue 731 ISCCNBSSpectralColorTerms) = false := by
  refine ⟨?_, fun w p => wavelengthToHue_find w p, ?_, ?_, ?_, ?_, ?_, ?_⟩
  · intro p w hp
    induction p with
    | nil => simp [wavelengthToHue, isOkE]
    | cons ct rest ih =>
      by_cases h : ct.containsW w
      · have hok := entryHue_isOk ct w (hp ct (List.mem_cons_self ct rest))
        simp only [wavelengthToHue, if_pos h, hok, true_iff]
        exact ⟨ct, List.mem_cons_self ct rest, h⟩
      · have ih' := ih (fun c hc => hp c (List.mem_cons_of_mem _ hc))
        simp only [wavelengthToHue, if_neg h, ih']
        constructor
        · rintro ⟨c, hc, hcw⟩
          exact ⟨c, List.mem_cons_of_mem _ hc, hcw⟩
        · rintro ⟨c, hc, hcw⟩
          rcases List.mem_cons.mp hc with rfl | hc'
          · exact absurd hcw h
          · exact ⟨c, hc', hcw⟩
  · intro ct w hr hhr hdeg
    unfold SpectralColor.entryHue
    rw [hhr]
    dsimp only
    split_ifs with hspan
    · unfold HueRange.hue
      rw [← hdeg]
      have : (((hr.minHue : ℚ) + (hr.minHue : ℚ)) / 2) = ((hr.minHue : ℤ) : ℚ) := by
        ring
      rw [hdeg, ← hdeg, this, pytrunc_intCast]
    · have : ((hr.maxHue : ℚ) - (hr.minHue : ℚ)) = 0 := by
        rw [hdeg]
        ring
      rw [this, mul_zero, add_zero, pytrunc_intCast]
  · intro ct w hr hhr hspan
    unfold SpectralColor.entryHue
    rw [hhr]
    dsimp only
    rw [if_neg hspan]
  · norm_num [wavelengthToHue, ISCCNBSSpectralColorTerms, SpectralColor.containsW,
      SpectralColor.entryHue, pytrunc]
  · norm_num [wavelengthToHue, ISCCNBSSpectralColorTerms, SpectralColor.containsW,
      SpectralColor.entryHue, pytrunc]
  · norm_num [wavelengthToHue, ISCCNBSSpectralColorTerms, SpectralColor.containsW,
      SpectralColor.entryHue, isOkE]
  · norm_num [wavelengthToHue, ISCCNBSSpectralColorTerms, SpectralColor.containsW,
      SpectralColor.entryHue, isOkE]

/-- **C7** (witness).  The success/containment equivalence instantiated on the
ISCC-NBS palette at wavelength 520. -/
theorem C7_witness :
    (∀ ct ∈ ISCCNBSSpectralColorTerms, ct.hueApproximation.isSome = true) ∧
    (isOkE (wavelengthToHue 520 ISCCNBSSpectralColorTerms) = true ↔
      ∃ ct ∈ ISCCNBSSpectralColorTerms, ct.containsW 520) :=
  ⟨by decide, C7_wavelength_to_hue.1 ISCCNBSSpectralColorTerms 520 (by decide)⟩

/-- **C1** (code bug evidence).  With a color dictionary containing only
`"rose"` and an object dictionary containing only `"ruby"`, the description
`"ruby"` produces *no* candidates in the source: both matching passes run the
*color* automaton (`_load_color_automaton` is loaded again at line 787, and
`_load_object_automaton` is never used), so the object name `"ruby"` never
matches and `color_from_description` returns `None`.  Under the claimed
two-dictionary scan the second pass would yield the `"ruby"` candidate with
the hex color `#8B0000` from the object dictionary. -/
theorem C1_second_pass_reuses_color_automaton :
    (∀ sim : String → String → ℚ,
        collectCandidates sim [("#FF007F", "rose")] [("#8B0000", "ruby")] "ruby" =
          .ok ([], [])) ∧
    (∀ sim : String → String → ℚ,
        collectCandidatesClaimed sim [("#FF007F", "rose")] [("#8B0000", "ruby")] "ruby" =
          .ok ([⟨0, 139 / 510, 1, some "ruby", none⟩], [sim "ruby" "ruby"])) ∧
    colorFromDescription (fun _ _ => 0) (fun _ _ => 0) [("#FF007F", "rose")]
        [("#8B0000", "ruby")] ColorAdjectives.empty "ruby" false = .ok none := by
  have h1 : automatonMatches [("#FF007F", "rose")] "ruby" = [] := by decide
  refine ⟨?_, ?_, ?_⟩
  · intro sim
    simp [collectCandidates, matchPass, h1, Bind.bind, Except.bind, List.mapM,
      List.mapM.loop, pure, Except.pure]
  · intro sim
    have h2 : automatonMatches [("#8B0000", "ruby")] "ruby" = ["#8B0000"] := by decide
    have h3 : dictGet [("#8B0000", "ruby")] "#8B0000" = some "ruby" := by decide
    have h4 : sRGBAColor.fromHexStr (K := ℚ) "#8B0000" (some "ruby") none =
        .ok ⟨139, 0, 0, 255, some "ruby", none⟩ := by
      have p1 : parseHexNat ['8', 'B'] = .ok 139 := by decide
      have p2 : parseHexNat ['0', '0'] = .ok 0 := by decide
      have hdata : "#8B0000".data = '#' :: "8B0000".data := by decide
      simp only [sRGBAColor.fromHexStr, hdata]
      norm_num [pySlice, sRGBAColor.mk?, p1, p2]
    have h5 : sRGBAColor.as_hls (K := ℚ) ⟨139, 0, 0, 255, some "ruby", none⟩ =
        ⟨0, 139 / 510, 1, some "ruby", none⟩ := by
      norm_num [sRGBAColor.as_hls, rgbToHls, pymod, pytrunc, min_def, max_def]
    simp [collectCandidatesClaimed, matchPass, h1, h2, h3, h4, h5, Bind.bind,
      Except.bind, List.mapM, List.mapM.loop, pure, Except.pure,
      HLSColor.fromHexStr, Except.map]
  · have hc : collectCandidates (K := ℝ) (fun _ _ => 0) [("#FF007F", "rose")]
        [("#8B0000", "ruby")] "ruby" = .ok ([], []) := by
      simp [collectCandidates, matchPass, h1, Bind.bind, Except.bind, List.mapM,
        List.mapM.loop, pure, Except.pure]
    simp [colorFromDescription, hc, Bind.bind, Except.bind, pure, Except.pure]

/-- **C9**.  Whenever the candidate-collection phase returns normally with zero
candidates, `color_from_description` returns the explicit absent result
(`None`) — it does not raise and does not fabricate a color. -/
theorem C9_no_candidates_yields_none (sim : String → String → ℝ)
    (dist : sRGBAColor ℝ → sRGBAColor ℝ → ℝ)
    (colorDict objDict : List (String × String)) (adjectives : ColorAdjectives)
    (description : String) (castToPalette : Bool)
    (h : collectCandidates sim colorDict objDict description = .ok ([], [])) :
    colorFromDescription sim dist colorDict objDict adjectives description
      castToPalette = .ok none := by
  simp [colorFromDescription, h, Bind.bind, Except.bind, pure, Except.pure]

/-- **C9** (witness).  Empty dictionaries give zero candidates on any text, and
the pipeline returns `None` there. -/
theorem C9_witness :
    collectCandidates (fun _ _ => (0 : ℝ)) [] [] "no color here" = .ok ([], []) ∧
    colorFromDescription (fun _ _ => 0) (fun _ _ => 0) [] [] ColorAdjectives.empty
        "no color here" false = .ok none := by
  have h : collectCandidates (fun _ _ => (0 : ℝ)) [] [] "no color here" =
      .ok ([], []) := by
    simp [collectCandidates, matchPass, automatonMatches, Bind.bind, Except.bind,
      List.mapM, List.mapM.loop, pure, Except.pure]
  exact ⟨h, C9_no_candidates_yields_none _ _ _ _ _ _ _ h⟩

section C5

open Real

/-- **C5**.  The hue of `average_colors` is the weighted circular mean: the
truncated, `% 360`-normalized degree form of `atan2(sin_sum, cos_sum)` always
lies in `[0, 360)`, and averaging the hues 350° and 10° with equal weights
yields exactly hue 0 (together with the arithmetic means 1/2 of lightness and
saturation) — not 180°. -/
theorem C5_weighted_circular_mean :
    (∀ (colors : List (HLSColor ℝ)) (weights : List ℝ),
        0 ≤ avgHue colors weights ∧ avgHue colors weights < 360) ∧
    averageColors [⟨350, 1/2, 1/2, none, none⟩, ⟨10, 1/2, 1/2, none, none⟩] [1, 1] =
      .ok ⟨0, 1/2, 1/2, none, some "Weighted average"⟩ := by
  have hrange : ∀ (colors : List (HLSColor ℝ)) (weights : List ℝ),
      0 ≤ avgHue colors weights ∧ avgHue colors weights < 360 := by
    intro colors weights
    unfold avgHue
    have h1 : 0 ≤ pymod (degrees (atan2
        (((colors.zip weights).map (fun p => Real.sin (radians (p.1.h : ℝ)) * p.2)).sum)
        (((colors.zip weights).map (fun p => Real.cos (radians (p.1.h : ℝ)) * p.2)).sum))) 360 :=
      pymod_nonneg _ _ (by norm_num)
    have h2 : pymod (degrees (atan2
        (((colors.zip weights).map (fun p => Real.sin (radians (p.1.h : ℝ)) * p.2)).sum)
        (((colors.zip weights).map (fun p => Real.cos (radians (p.1.h : ℝ)) * p.2)).sum))) 360 < 360 :=
      pymod_lt _ _ (by norm_num)
    rw [pytrunc_eq_floor h1]
    constructor
    · exact Int.floor_nonneg.mpr h1
    · exact Int.floor_lt.mpr (by exact_mod_cast h2)
  refine ⟨hrange, ?_⟩
  have hsin : Real.sin (radians ((350 : ℤ) : ℝ)) = -Real.sin (radians ((10 : ℤ) : ℝ)) := by
    unfold radians
    push_cast
    have h350 : (350 : ℝ) * π / 180 = 2 * π - 10 * π / 180 := by ring
    rw [h350, Real.sin_sub, Real.sin_two_pi, Real.cos_two_pi]
    ring
  have hcos : Real.cos (radians ((350 : ℤ) : ℝ)) = Real.cos (radians ((10 : ℤ) : ℝ)) := by
    unfold radians
    push_cast
    have h350 : (350 : ℝ) * π / 180 = 2 * π - 10 * π / 180 := by ring
    rw [h350, Real.cos_sub, Real.sin_two_pi, Real.cos_two_pi]
    ring
  have hcpos : 0 < Real.cos (radians ((10 : ℤ) : ℝ)) := by
    unfold radians
    push_cast
    apply Real.cos_pos_of_mem_Ioo
    constructor
    · have := Real.pi_pos
      nlinarith
    · have := Real.pi_pos
      nlinarith
  have hhue : avgHue [⟨350, 1/2, 1/2, none, none⟩, ⟨10, 1/2, 1/2, none, none⟩] [1, 1] = 0 := by
    unfold avgHue
    dsimp only
    simp only [List.zip_cons_cons, List.zip_nil_right, List.zip_nil_left, List.map_cons,
      List.map_nil, List.sum_cons, List.sum_nil]
    rw [hsin, hcos]
    have hs0 : -Real.sin (radians ((10 : ℤ) : ℝ)) * 1 +
        (Real.sin (radians ((10 : ℤ) : ℝ)) * 1 + 0) = 0 := by ring
    have hc2 : Real.cos (radians ((10 : ℤ) : ℝ)) * 1 +
        (Real.cos (radians ((10 : ℤ) : ℝ)) * 1 + 0) =
        2 * Real.cos (radians ((10 : ℤ) : ℝ)) := by ring
    rw [hs0, hc2]
    have harg : atan2 0 (2 * Real.cos (radians ((10 : ℤ) : ℝ))) = 0 := by
      unfold atan2
      have hz : (⟨2 * Real.cos (radians ((10 : ℤ) : ℝ)), 0⟩ : ℂ) =
          ((2 * Real.cos (radians ((10 : ℤ) : ℝ)) : ℝ) : ℂ) := rfl
      rw [hz]
      exact Complex.arg_ofReal_of_nonneg (by linarith)
    rw [harg]
    unfold degrees
    rw [zero_mul, zero_div]
    unfold pymod
    norm_num
    rw [show ((0 : ℝ)) = ((0 : ℤ) : ℝ) by norm_num, pytrunc_intCast]
  unfold averageColors
  dsimp only
  simp only [List.isEmpty_cons, Bool.false_eq_true, if_false, List.zip_cons_cons,
    List.zip_nil_right, List.zip_nil_left, List.map_cons, List.map_nil, List.sum_cons,
    List.sum_nil, hhue]
  norm_num [HLSColor.mk?]


end C5

section C6

open Real

/-- **C6**.  `convert_K_to_RGB` rejects 999 and 40001 with the range error and
maps 6600 K to the exact neutral white `(255, 255, 255)` (each channel within
"a few units" of 255), with description `"6600K"` — the input Kelvin value
annotated as a temperature. -/
theorem C6_kelvin_domain_and_6600 :
    convert_K_to_RGB 999 = .error kelvinRangeMsg ∧
    convert_K_to_RGB 40001 = .error kelvinRangeMsg ∧
    convert_K_to_RGB 6600 = .ok ⟨255, 255, 255, 255, none, some "6600K"⟩ := by
  refine ⟨?_, ?_, ?_⟩
  · unfold convert_K_to_RGB
    norm_num
  · unfold convert_K_to_RGB
    norm_num
  · have hlog2 : (0.6931471803 : ℝ) < Real.log 2 := Real.log_two_gt_d9
    have h64 : Real.log 64 = 6 * Real.log 2 := by
      rw [show (64 : ℝ) = 2 ^ (6 : ℕ) by norm_num, Real.log_pow]
      norm_num
    have h66 : Real.log 66 = Real.log 64 + Real.log (33 / 32) := by
      rw [← Real.log_mul (by norm_num) (by norm_num)]
      norm_num
    have hq : (1 : ℝ) / 33 ≤ Real.log (33 / 32) := by
      have hx := Real.add_one_le_exp (-Real.log (33 / 32))
      rw [Real.exp_neg, Real.exp_log (by norm_num : (0 : ℝ) < 33 / 32)] at hx
      have h32 : ((33 : ℝ) / 32)⁻¹ = 32 / 33 := by norm_num
      rw [h32] at hx
      linarith
    have hg : (255 : ℝ) < 99.4708025861 * Real.log 66 - 161.1195681661 := by
      have hl : Real.log 66 ≥ 6 * 0.6931471803 + 1 / 33 := by
        rw [h66, h64]
        linarith
      nlinarith
    unfold convert_K_to_RGB
    rw [if_neg (by norm_num)]
    dsimp only
    have ht : ((6600 : ℤ) : ℝ) / 100 = 66 := by norm_num
    rw [ht]
    rw [if_pos (le_refl (66 : ℝ))]
    have hgc : kelvinClamp (99.4708025861 * Real.log 66 - 161.1195681661) = 255 := by
      unfold kelvinClamp
      rw [if_neg (by linarith), if_pos (by linarith)]
    rw [hgc]
    rw [if_pos (le_refl (66 : ℝ))]
    norm_num [sRGBAColor.mk?]
    rfl


end C6

section C8

theorem perm3_facts {Mn mn x a b c : ℚ} (hx1 : mn ≤ x) (hx2 : x ≤ Mn)
    (habc : (a = Mn ∧ b = x ∧ c = mn) ∨ (a = x ∧ b = Mn ∧ c = mn) ∨
      (a = mn ∧ b = Mn ∧ c = x) ∨ (a = mn ∧ b = x ∧ c = Mn) ∨
      (a = x ∧ b = mn ∧ c = Mn) ∨ (a = Mn ∧ b = mn ∧ c = x)) :
    max a (max b c) = Mn ∧ min a (min b c) = mn ∧
      (mn ≤ a ∧ a ≤ Mn) ∧ (mn ≤ b ∧ b ≤ Mn) ∧ (mn ≤ c ∧ c ≤ Mn) := by
  rcases habc with ⟨h1, h2, h3⟩ | ⟨h1, h2, h3⟩ | ⟨h1, h2, h3⟩ | ⟨h1, h2, h3⟩ |
    ⟨h1, h2, h3⟩ | ⟨h1, h2, h3⟩ <;> subst h1 <;> subst h2 <;> subst h3 <;>
    refine ⟨?_, ?_, ⟨?_, ?_⟩, ⟨?_, ?_⟩, ⟨?_, ?_⟩⟩ <;>
    first
      | linarith
      | (simp only [max_def, min_def]; split_ifs <;> linarith)

theorem hsvToRgb_eq (h s v : ℚ) (hs : s ≠ 0) :
    hsvToRgb h s v =
      (if pytrunc (h * 6) % 6 = 0 then
        (v, v * (1 - s * (1 - (h * 6 - (pytrunc (h * 6) : ℚ)))), v * (1 - s))
      else if pytrunc (h * 6) % 6 = 1 then
        (v * (1 - s * (h * 6 - (pytrunc (h * 6) : ℚ))), v, v * (1 - s))
      else if pytrunc (h * 6) % 6 = 2 then
        (v * (1 - s), v, v * (1 - s * (1 - (h * 6 - (pytrunc (h * 6) : ℚ)))))
      else if pytrunc (h * 6) % 6 = 3 then
        (v * (1 - s), v * (1 - s * (h * 6 - (pytrunc (h * 6) : ℚ))), v)
      else if pytrunc (h * 6) % 6 = 4 then
        (v * (1 - s * (1 - (h * 6 - (pytrunc (h * 6) : ℚ)))), v * (1 - s), v)
      else if pytrunc (h * 6) % 6 = 5 then
        (v, v * (1 - s), v * (1 - s * (h * 6 - (pytrunc (h * 6) : ℚ))))
      else (0, 0, 0)) := by
  simp only [hsvToRgb, hs, if_false]

theorem hsvToRgb_trunc_facts (h mn Mn : ℚ) (hh0 : 0 ≤ h) (hh1 : h < 1)
    (hmn0 : 0 ≤ mn) (hlt : mn < Mn) (out : ℚ × ℚ × ℚ)
    (hout : out = hsvToRgb ((pytrunc (h * 360) : ℚ) / 360) ((Mn - mn) / Mn) Mn) :
    max out.1 (max out.2.1 out.2.2) = Mn ∧ min out.1 (min out.2.1 out.2.2) = mn ∧
      (mn ≤ out.1 ∧ out.1 ≤ Mn) ∧ (mn ≤ out.2.1 ∧ out.2.1 ≤ Mn) ∧
      (mn ≤ out.2.2 ∧ out.2.2 ≤ Mn) := by
  have hM0 : 0 < Mn := hmn0.trans_lt hlt
  have hsne : (Mn - mn) / Mn ≠ 0 := div_ne_zero (sub_ne_zero.mpr hlt.ne') hM0.ne'
  have hx0 : 0 ≤ h * 360 := by positivity
  have hi0 : (0 : ℤ) ≤ pytrunc (h * 360) := by
    apply le_pytrunc_of_le <;> push_cast <;> linarith
  have hi359 : pytrunc (h * 360) < 360 := by
    rw [pytrunc_eq_floor hx0]
    exact Int.floor_lt.mpr (by push_cast; linarith)
  set hi := pytrunc (h * 360) with hhi
  set h' : ℚ := (hi : ℚ) / 360 with hh'
  have hh'0 : 0 ≤ h' := by positivity
  have hh'1 : h' < 1 := by
    rw [hh', div_lt_one (by norm_num)]
    exact_mod_cast hi359
  have hx60 : 0 ≤ h' * 6 := by positivity
  have hx66 : h' * 6 < 6 := by linarith
  have hj0 : (0 : ℤ) ≤ pytrunc (h' * 6) := by
    apply le_pytrunc_of_le <;> push_cast <;> linarith
  have hj5 : pytrunc (h' * 6) ≤ 5 := by
    have : pytrunc (h' * 6) < 6 := by
      rw [pytrunc_eq_floor hx60]
      exact Int.floor_lt.mpr (by push_cast; linarith)
    omega
  set i0 := pytrunc (h' * 6) with hi0def
  have hemod : i0 % 6 = i0 := Int.emod_eq_of_lt hj0 (by omega)
  have hf0 : 0 ≤ h' * 6 - (i0 : ℚ) := by
    rw [hi0def, pytrunc_eq_floor hx60]
    exact sub_nonneg.mpr (Int.floor_le _)
  have hf1 : h' * 6 - (i0 : ℚ) < 1 := by
    rw [hi0def, pytrunc_eq_floor hx60]
    have := Int.lt_floor_add_one (h' * 6)
    push_cast at this ⊢
    linarith
  set f := h' * 6 - (i0 : ℚ) with hf
  set s := (Mn - mn) / Mn with hsdef
  have hp : Mn * (1 - s) = mn := by
    rw [hsdef]
    field_simp
  have hqv : Mn * (1 - s * f) = Mn - (Mn - mn) * f := by
    rw [hsdef]
    field_simp
  have htv : Mn * (1 - s * (1 - f)) = Mn - (Mn - mn) * (1 - f) := by
    rw [hsdef]
    field_simp
  have hq1 : mn ≤ Mn * (1 - s * f) := by rw [hqv]; nlinarith
  have hq2 : Mn * (1 - s * f) ≤ Mn := by rw [hqv]; nlinarith
  have ht1 : mn ≤ Mn * (1 - s * (1 - f)) := by rw [htv]; nlinarith
  have ht2 : Mn * (1 - s * (1 - f)) ≤ Mn := by rw [htv]; nlinarith
  rw [hsvToRgb_eq _ _ _ hsne] at hout
  rw [← hi0def, hemod, ← hf] at hout
  have hcase : i0 = 0 ∨ i0 = 1 ∨ i0 = 2 ∨ i0 = 3 ∨ i0 = 4 ∨ i0 = 5 := by omega
  rcases hcase with hc | hc | hc | hc | hc | hc
  · rw [if_pos hc] at hout
    subst hout
    exact perm3_facts ht1 ht2 (Or.inl ⟨rfl, rfl, hp⟩)
  · rw [if_neg (by omega), if_pos hc] at hout
    subst hout
    exact perm3_facts hq1 hq2 (Or.inr (Or.inl ⟨rfl, rfl, hp⟩))
  · rw [if_neg (by omega), if_neg (by omega), if_pos hc] at hout
    subst hout
    exact perm3_facts ht1 ht2 (Or.inr (Or.inr (Or.inl ⟨hp, rfl, rfl⟩)))
  · rw [if_neg (by omega), if_neg (by omega), if_neg (by omega), if_pos hc] at hout
    subst hout
    exact perm3_facts hq1 hq2 (Or.inr (Or.inr (Or.inr (Or.inl ⟨hp, rfl, rfl⟩))))
  · rw [if_neg (by omega), if_neg (by omega), if_neg (by omega), if_neg (by omega),
      if_pos hc] at hout
    subst hout
    exact perm3_facts ht1 ht2 (Or.inr (Or.inr (Or.inr (Or.inr (Or.inl ⟨rfl, hp, rfl⟩)))))
  · rw [if_neg (by omega), if_neg (by omega), if_neg (by omega), if_neg (by omega),
      if_neg (by omega), if_pos hc] at hout
    subst hout
    exact perm3_facts hq1 hq2 (Or.inr (Or.inr (Or.inr (Or.inr (Or.inr ⟨rfl, hp, rfl⟩)))))


theorem hsv_core (r g b : ℚ) (hr0 : 0 ≤ r) (hr1 : r ≤ 1) (hg0 : 0 ≤ g) (hg1 : g ≤ 1)
    (hb0 : 0 ≤ b) (hb1 : b ≤ 1) (out : ℚ × ℚ × ℚ)
    (hout : out = hsvToRgb ((pytrunc ((rgbToHsv r g b).1 * 360) : ℚ) / 360)
      (rgbToHsv r g b).2.1 (rgbToHsv r g b).2.2) :
    max out.1 (max out.2.1 out.2.2) = max r (max g b) ∧
    min out.1 (min out.2.1 out.2.2) = min r (min g b) ∧
    (min r (min g b) ≤ out.1 ∧ out.1 ≤ max r (max g b)) ∧
    (min r (min g b) ≤ out.2.1 ∧ out.2.1 ≤ max r (max g b)) ∧
    (min r (min g b) ≤ out.2.2 ∧ out.2.2 ≤ max r (max g b)) := by
  by_cases heq : min r (min g b) = max r (max g b)
  · have hhsv : rgbToHsv r g b = (0, 0, max r (max g b)) := by
      simp [rgbToHsv, heq]
    rw [hhsv] at hout
    have h0 : pytrunc ((0 : ℚ) * 360) = 0 := by
      rw [show (0 : ℚ) * 360 = ((0 : ℤ) : ℚ) by norm_num, pytrunc_intCast]
    dsimp only at hout
    rw [h0] at hout
    have hs0 : hsvToRgb (((0 : ℤ) : ℚ) / 360) 0 (max r (max g b)) =
        (max r (max g b), max r (max g b), max r (max g b)) := by
      simp [hsvToRgb]
    rw [hs0] at hout
    subst hout
    refine ⟨by simp, by simp [heq], ?_, ?_, ?_⟩ <;>
      constructor <;> simp [heq]
  · have hmn0 : 0 ≤ min r (min g b) := le_min hr0 (le_min hg0 hb0)
    have hle : min r (min g b) ≤ max r (max g b) :=
      (min_le_left _ _).trans (le_max_left _ _)
    have hlt : min r (min g b) < max r (max g b) := lt_of_le_of_ne hle heq
    have hv : (rgbToHsv r g b).2.2 = max r (max g b) := by
      simp [rgbToHsv, heq]
    have hs : (rgbToHsv r g b).2.1 =
        (max r (max g b) - min r (min g b)) / max r (max g b) := by
      simp [rgbToHsv, heq]
    have hh0 : 0 ≤ (rgbToHsv r g b).1 := by
      simp only [rgbToHsv]
      rw [if_neg heq]
      exact pymod_nonneg _ _ one_pos
    have hh1 : (rgbToHsv r g b).1 < 1 := by
      simp only [rgbToHsv]
      rw [if_neg heq]
      exact pymod_lt _ _ one_pos
    rw [hs, hv] at hout
    exact hsvToRgb_trunc_facts _ _ _ hh0 hh1 hmn0 hlt out hout


theorem hlsV_eq_m2 {m1 m2 hue : ℚ} (h1 : 1 / 6 ≤ pymod hue 1)
    (h2 : pymod hue 1 < 1 / 2) : hlsV m1 m2 hue = m2 := by
  simp only [hlsV]
  rw [if_neg (not_lt.mpr h1), if_pos h2]

theorem hlsV_eq_m1 {m1 m2 hue : ℚ} (h1 : 2 / 3 ≤ pymod hue 1) :
    hlsV m1 m2 hue = m1 := by
  simp only [hlsV]
  rw [if_neg (by linarith), if_neg (by linarith), if_neg (not_lt.mpr h1)]

theorem hlsV_mem {m1 m2 : ℚ} (hue : ℚ) (h : m1 ≤ m2) :
    m1 ≤ hlsV m1 m2 hue ∧ hlsV m1 m2 hue ≤ m2 := by
  have h0 := pymod_nonneg hue 1 one_pos
  have h1 := pymod_lt hue 1 one_pos
  simp only [hlsV]
  split_ifs with c1 c2 c3 <;> constructor <;> nlinarith

theorem hlsToRgb_eq (h l s : ℚ) (hs : s ≠ 0) (m2 : ℚ)
    (hm2 : (if l ≤ 1 / 2 then l * (1 + s) else l + s - l * s) = m2) :
    hlsToRgb h l s = (hlsV (2 * l - m2) m2 (h + 1 / 3), hlsV (2 * l - m2) m2 h,
      hlsV (2 * l - m2) m2 (h - 1 / 3)) := by
  simp only [hlsToRgb, hs, if_false, hm2]

theorem hlsToRgb_trunc_facts (h mn Mn : ℚ) (hh0 : 0 ≤ h) (hh1 : h < 1)
    (hmn0 : 0 ≤ mn) (hlt : mn < Mn) (l s : ℚ) (hs0 : s ≠ 0)
    (hm2 : (if l ≤ 1 / 2 then l * (1 + s) else l + s - l * s) = Mn)
    (hm1 : 2 * l - Mn = mn) (out : ℚ × ℚ × ℚ)
    (hout : out = hlsToRgb ((pytrunc (h * 360) : ℚ) / 360) l s) :
    max out.1 (max out.2.1 out.2.2) = Mn ∧ min out.1 (min out.2.1 out.2.2) = mn ∧
      (mn ≤ out.1 ∧ out.1 ≤ Mn) ∧ (mn ≤ out.2.1 ∧ out.2.1 ≤ Mn) ∧
      (mn ≤ out.2.2 ∧ out.2.2 ≤ Mn) := by
  rw [hlsToRgb_eq _ _ _ hs0 Mn hm2, hm1] at hout
  have hx0 : 0 ≤ h * 360 := by positivity
  have hi0 : (0 : ℤ) ≤ pytrunc (h * 360) := by
    apply le_pytrunc_of_le <;> push_cast <;> linarith
  have hi359 : pytrunc (h * 360) < 360 := by
    rw [pytrunc_eq_floor hx0]
    exact Int.floor_lt.mpr (by push_cast; linarith)
  set hi := pytrunc (h * 360) with hhi
  set h' : ℚ := (hi : ℚ) / 360 with hh'
  have hq0 : (0 : ℚ) ≤ (hi : ℚ) := by exact_mod_cast hi0
  have hq359 : (hi : ℚ) < 360 := by exact_mod_cast hi359
  have hh'0 : 0 ≤ h' := by positivity
  have hh'1 : h' < 1 := by
    rw [hh', div_lt_one (by norm_num)]
    exact hq359
  have hcase : (hi : ℚ) < 60 ∨ (60 ≤ (hi : ℚ) ∧ (hi : ℚ) < 120) ∨
      (120 ≤ (hi : ℚ) ∧ (hi : ℚ) < 180) ∨ (180 ≤ (hi : ℚ) ∧ (hi : ℚ) < 240) ∨
      (240 ≤ (hi : ℚ) ∧ (hi : ℚ) < 300) ∨ (300 ≤ (hi : ℚ)) := by
    have : hi < 60 ∨ (60 ≤ hi ∧ hi < 120) ∨ (120 ≤ hi ∧ hi < 180) ∨
        (180 ≤ hi ∧ hi < 240) ∨ (240 ≤ hi ∧ hi < 300) ∨ 300 ≤ hi := by omega
    rcases this with h | ⟨h1, h2⟩ | ⟨h1, h2⟩ | ⟨h1, h2⟩ | ⟨h1, h2⟩ | h
    · exact Or.inl (by exact_mod_cast h)
    · exact Or.inr (Or.inl ⟨by exact_mod_cast h1, by exact_mod_cast h2⟩)
    · exact Or.inr (Or.inr (Or.inl ⟨by exact_mod_cast h1, by exact_mod_cast h2⟩))
    · exact Or.inr (Or.inr (Or.inr (Or.inl ⟨by exact_mod_cast h1, by exact_mod_cast h2⟩)))
    · exact Or.inr (Or.inr (Or.inr (Or.inr (Or.inl ⟨by exact_mod_cast h1, by exact_mod_cast h2⟩))))
    · exact Or.inr (Or.inr (Or.inr (Or.inr (Or.inr (by exact_mod_cast h)))))
  have hmidA := hlsV_mem (h' + 1 / 3) hlt.le
  have hmidB := hlsV_mem h' hlt.le
  have hmidC := hlsV_mem (h' - 1 / 3) hlt.le
  have hB2 : pymod h' 1 = h' := pymod_one_of_mem hh'0 hh'1
  rcases hcase with hc | ⟨hc1, hc2⟩ | ⟨hc1, hc2⟩ | ⟨hc1, hc2⟩ | ⟨hc1, hc2⟩ | hc
  · -- hi ∈ [0, 60): (m2, interp, m1)
    have hA : pymod (h' + 1 / 3) 1 = h' + 1 / 3 :=
      pymod_one_of_mem (by rw [hh']; linarith) (by rw [hh']; linarith)
    have hC : pymod (h' - 1 / 3) 1 = h' - 1 / 3 + 1 :=
      pymod_one_shift_up (by rw [hh']; linarith) (by rw [hh']; linarith)
    have e1 : hlsV mn Mn (h' + 1 / 3) = Mn :=
      hlsV_eq_m2 (by rw [hA, hh']; linarith) (by rw [hA, hh']; linarith)
    have e3 : hlsV mn Mn (h' - 1 / 3) = mn :=
      hlsV_eq_m1 (by rw [hC, hh']; linarith)
    subst hout
    exact perm3_facts hmidB.1 hmidB.2 (Or.inl ⟨e1, rfl, e3⟩)
  · -- hi ∈ [60, 120): (interp, m2, m1)
    have hC : pymod (h' - 1 / 3) 1 = h' - 1 / 3 + 1 :=
      pymod_one_shift_up (by rw [hh']; linarith) (by rw [hh']; linarith)
    have e2 : hlsV mn Mn h' = Mn :=
      hlsV_eq_m2 (by rw [hB2, hh']; linarith) (by rw [hB2, hh']; linarith)
    have e3 : hlsV mn Mn (h' - 1 / 3) = mn :=
      hlsV_eq_m1 (by rw [hC, hh']; linarith)
    subst hout
    exact perm3_facts hmidA.1 hmidA.2 (Or.inr (Or.inl ⟨rfl, e2, e3⟩))
  · -- hi ∈ [120, 180): (m1, m2, interp)
    have hA : pymod (h' + 1 / 3) 1 = h' + 1 / 3 :=
      pymod_one_of_mem (by rw [hh']; linarith) (by rw [hh']; linarith)
    have e1 : hlsV mn Mn (h' + 1 / 3) = mn :=
      hlsV_eq_m1 (by rw [hA, hh']; linarith)
    have e2 : hlsV mn Mn h' = Mn :=
      hlsV_eq_m2 (by rw [hB2, hh']; linarith) (by rw [hB2, hh']; linarith)
    subst hout
    exact perm3_facts hmidC.1 hmidC.2 (Or.inr (Or.inr (Or.inl ⟨e1, e2, rfl⟩)))
  · -- hi ∈ [180, 240): (m1, interp, m2)
    have hA : pymod (h' + 1 / 3) 1 = h' + 1 / 3 :=
      pymod_one_of_mem (by rw [hh']; linarith) (by rw [hh']; linarith)
    have hC : pymod (h' - 1 / 3) 1 = h' - 1 / 3 :=
      pymod_one_of_mem (by rw [hh']; linarith) (by rw [hh']; linarith)
    have e1 : hlsV mn Mn (h' + 1 / 3) = mn :=
      hlsV_eq_m1 (by rw [hA, hh']; linarith)
    have e3 : hlsV mn Mn (h' - 1 / 3) = Mn :=
      hlsV_eq_m2 (by rw [hC, hh']; linarith) (by rw [hC, hh']; linarith)
    subst hout
    exact perm3_facts hmidB.1 hmidB.2 (Or.inr (Or.inr (Or.inr (Or.inl ⟨e1, rfl, e3⟩))))
  · -- hi ∈ [240, 300): (interp, m1, m2)
    have hC : pymod (h' - 1 / 3) 1 = h' - 1 / 3 :=
      pymod_one_of_mem (by rw [hh']; linarith) (by rw [hh']; linarith)
    have e2 : hlsV mn Mn h' = mn :=
      hlsV_eq_m1 (by rw [hB2, hh']; linarith)
    have e3 : hlsV mn Mn (h' - 1 / 3) = Mn :=
      hlsV_eq_m2 (by rw [hC, hh']; linarith) (by rw [hC, hh']; linarith)
    subst hout
    exact perm3_facts hmidA.1 hmidA.2
      (Or.inr (Or.inr (Or.inr (Or.inr (Or.inl ⟨rfl, e2, e3⟩)))))
  · -- hi ∈ [300, 360): (m2, m1, interp)
    have hA : pymod (h' + 1 / 3) 1 = h' + 1 / 3 - 1 :=
      pymod_one_shift_down (by rw [hh']; linarith) (by rw [hh']; linarith)
    have hC : pymod (h' - 1 / 3) 1 = h' - 1 / 3 :=
      pymod_one_of_mem (by rw [hh']; linarith) (by rw [hh']; linarith)
    have e1 : hlsV mn Mn (h' + 1 / 3) = Mn :=
      hlsV_eq_m2 (by rw [hA, hh']; linarith) (by rw [hA, hh']; linarith)
    have e2 : hlsV mn Mn h' = mn :=
      hlsV_eq_m1 (by rw [hB2, hh']; linarith)
    subst hout
    exact perm3_facts hmidC.1 hmidC.2
      (Or.inr (Or.inr (Or.inr (Or.inr (Or.inr ⟨e1, e2, rfl⟩)))))


theorem hls_core (r g b : ℚ) (hr0 : 0 ≤ r) (hr1 : r ≤ 1) (hg0 : 0 ≤ g) (hg1 : g ≤ 1)
    (hb0 : 0 ≤ b) (hb1 : b ≤ 1) (out : ℚ × ℚ × ℚ)
    (hout : out = hlsToRgb ((pytrunc ((rgbToHls r g b).1 * 360) : ℚ) / 360)
      (rgbToHls r g b).2.1 (min 1 (rgbToHls r g b).2.2)) :
    max out.1 (max out.2.1 out.2.2) = max r (max g b) ∧
    min out.1 (min out.2.1 out.2.2) = min r (min g b) ∧
    (min r (min g b) ≤ out.1 ∧ out.1 ≤ max r (max g b)) ∧
    (min r (min g b) ≤ out.2.1 ∧ out.2.1 ≤ max r (max g b)) ∧
    (min r (min g b) ≤ out.2.2 ∧ out.2.2 ≤ max r (max g b)) := by
  by_cases heq : min r (min g b) = max r (max g b)
  · have hhls : rgbToHls r g b = (0, (min r (min g b) + max r (max g b)) / 2, 0) := by
      simp [rgbToHls, heq]
    rw [hhls] at hout
    dsimp only at hout
    rw [show min (1 : ℚ) 0 = 0 by norm_num] at hout
    rw [show ∀ x l : ℚ, hlsToRgb x l 0 = (l, l, l) from fun x l => by simp [hlsToRgb]]
      at hout
    have hl : (min r (min g b) + max r (max g b)) / 2 = max r (max g b) := by
      rw [heq]; ring
    rw [hl] at hout
    subst hout
    refine ⟨by simp, by simp [heq], ?_, ?_, ?_⟩ <;> constructor <;> simp [heq]
  · have hmn0 : 0 ≤ min r (min g b) := le_min hr0 (le_min hg0 hb0)
    have hle : min r (min g b) ≤ max r (max g b) :=
      (min_le_left _ _).trans (le_max_left _ _)
    have hlt : min r (min g b) < max r (max g b) := lt_of_le_of_ne hle heq
    have hM1 : max r (max g b) ≤ 1 := max_le hr1 (max_le hg1 hb1)
    have hsum0 : 0 < max r (max g b) + min r (min g b) := by
      have := hmn0.trans_lt hlt
      linarith
    have h2sum : 0 < 2 - max r (max g b) - min r (min g b) := by
      have : min r (min g b) < 1 := hlt.trans_le hM1
      linarith
    have hl : (rgbToHls r g b).2.1 = (min r (min g b) + max r (max g b)) / 2 := by
      simp [rgbToHls, heq]
    have hsv : (rgbToHls r g b).2.2 =
        (if (min r (min g b) + max r (max g b)) / 2 ≤ 1 / 2 then
          (max r (max g b) - min r (min g b)) / (max r (max g b) + min r (min g b))
        else
          (max r (max g b) - min r (min g b)) /
            (2 - max r (max g b) - min r (min g b))) := by
      simp [rgbToHls, heq]
    have hs_pos : 0 < (rgbToHls r g b).2.2 := by
      rw [hsv]
      split_ifs
      · exact div_pos (sub_pos.mpr hlt) hsum0
      · exact div_pos (sub_pos.mpr hlt) h2sum
    have hs_le1 : (rgbToHls r g b).2.2 ≤ 1 := by
      rw [hsv]
      split_ifs
      · rw [div_le_one hsum0]
        linarith
      · rw [div_le_one h2sum]
        linarith
    have hmin1 : min 1 (rgbToHls r g b).2.2 = (rgbToHls r g b).2.2 :=
      min_eq_right hs_le1
    have hm2 : (if (rgbToHls r g b).2.1 ≤ 1 / 2 then
          (rgbToHls r g b).2.1 * (1 + (rgbToHls r g b).2.2)
        else (rgbToHls r g b).2.1 + (rgbToHls r g b).2.2 -
          (rgbToHls r g b).2.1 * (rgbToHls r g b).2.2) = max r (max g b) := by
      rw [hl, hsv]
      split_ifs
      · field_simp
        ring
      · field_simp
        ring
    have hm1 : 2 * (rgbToHls r g b).2.1 - max r (max g b) = min r (min g b) := by
      rw [hl]
      ring
    have hh0 : 0 ≤ (rgbToHls r g b).1 := by
      simp only [rgbToHls]
      rw [if_neg heq]
      exact pymod_nonneg _ _ one_pos
    have hh1 : (rgbToHls r g b).1 < 1 := by
      simp only [rgbToHls]
      rw [if_neg heq]
      exact pymod_lt _ _ one_pos
    rw [hmin1] at hout
    exact hlsToRgb_trunc_facts _ _ _ hh0 hh1 hmn0 hlt _ _ hs_pos.ne' hm2 hm1 out hout


theorem max3_cases {a b c M : ℚ} (h : max a (max b c) = M) : a = M ∨ b = M ∨ c = M := by
  rcases max_choice a (max b c) with h1 | h1
  · exact Or.inl (h1.symm.trans h)
  · rcases max_choice b c with h2 | h2
    · exact Or.inr (Or.inl (h2.symm.trans (h1.symm.trans h)))
    · exact Or.inr (Or.inr (h2.symm.trans (h1.symm.trans h)))

theorem min3_cases {a b c m : ℚ} (h : min a (min b c) = m) : a = m ∨ b = m ∨ c = m := by
  rcases min_choice a (min b c) with h1 | h1
  · exact Or.inl (h1.symm.trans h)
  · rcases min_choice b c with h2 | h2
    · exact Or.inr (Or.inl (h2.symm.trans (h1.symm.trans h)))
    · exact Or.inr (Or.inr (h2.symm.trans (h1.symm.trans h)))

theorem max3_eq {a b c M : ℚ} (ha : a ≤ M) (hb : b ≤ M) (hc : c ≤ M)
    (h : a = M ∨ b = M ∨ c = M) : max a (max b c) = M := by
  rcases h with h | h | h <;>
    simp only [max_def] <;> split_ifs <;> linarith

theorem min3_eq {a b c m : ℚ} (ha : m ≤ a) (hb : m ≤ b) (hc : m ≤ c)
    (h : a = m ∨ b = m ∨ c = m) : min a (min b c) = m := by
  rcases h with h | h | h <;>
    simp only [min_def] <;> split_ifs <;> linarith

theorem max_div255 (x y : ℚ) : max (x / 255) (y / 255) = max x y / 255 := by
  rcases le_total x y with h | h
  · rw [max_eq_right h, max_eq_right (by linarith : x / 255 ≤ y / 255)]
  · rw [max_eq_left h, max_eq_left (by linarith : y / 255 ≤ x / 255)]

theorem min_div255 (x y : ℚ) : min (x / 255) (y / 255) = min x y / 255 := by
  rcases le_total x y with h | h
  · rw [min_eq_left h, min_eq_left (by linarith : x / 255 ≤ y / 255)]
  · rw [min_eq_right h, min_eq_right (by linarith : y / 255 ≤ x / 255)]

theorem roundtrip_scale (r g b : ℤ) (hr : 0 ≤ r ∧ r ≤ 255) (hg : 0 ≤ g ∧ g ≤ 255)
    (hb : 0 ≤ b ∧ b ≤ 255) (O : ℚ × ℚ × ℚ)
    (hfacts : max O.1 (max O.2.1 O.2.2) =
        max ((r : ℚ) / 255) (max ((g : ℚ) / 255) ((b : ℚ) / 255)) ∧
      min O.1 (min O.2.1 O.2.2) =
        min ((r : ℚ) / 255) (min ((g : ℚ) / 255) ((b : ℚ) / 255)) ∧
      (min ((r : ℚ) / 255) (min ((g : ℚ) / 255) ((b : ℚ) / 255)) ≤ O.1 ∧
        O.1 ≤ max ((r : ℚ) / 255) (max ((g : ℚ) / 255) ((b : ℚ) / 255))) ∧
      (min ((r : ℚ) / 255) (min ((g : ℚ) / 255) ((b : ℚ) / 255)) ≤ O.2.1 ∧
        O.2.1 ≤ max ((r : ℚ) / 255) (max ((g : ℚ) / 255) ((b : ℚ) / 255))) ∧
      (min ((r : ℚ) / 255) (min ((g : ℚ) / 255) ((b : ℚ) / 255)) ≤ O.2.2 ∧
        O.2.2 ≤ max ((r : ℚ) / 255) (max ((g : ℚ) / 255) ((b : ℚ) / 255))))
    (T : ℚ × ℚ × ℚ)
    (hT : T = (((pytrunc (O.1 * 255) : ℤ) : ℚ), ((pytrunc (O.2.1 * 255) : ℤ) : ℚ),
      ((pytrunc (O.2.2 * 255) : ℤ) : ℚ))) :
    extremesOk T r g b := by
  subst hT
  obtain ⟨hmax, hmin, hB1, hB2, hB3⟩ := hfacts
  have hMq : max ((r : ℚ) / 255) (max ((g : ℚ) / 255) ((b : ℚ) / 255)) =
      ((max r (max g b) : ℤ) : ℚ) / 255 := by
    rw [max_div255, max_div255]
    push_cast
    rfl
  have hmq : min ((r : ℚ) / 255) (min ((g : ℚ) / 255) ((b : ℚ) / 255)) =
      ((min r (min g b) : ℤ) : ℚ) / 255 := by
    rw [min_div255, min_div255]
    push_cast
    rfl
  rw [hMq] at hmax hB1 hB2 hB3
  rw [hmq] at hmin hB1 hB2 hB3
  have hm0 : (0 : ℤ) ≤ min r (min g b) := le_min hr.1 (le_min hg.1 hb.1)
  have hm0q : (0 : ℚ) ≤ ((min r (min g b) : ℤ) : ℚ) := by exact_mod_cast hm0
  have chan : ∀ x : ℚ, ((min r (min g b) : ℤ) : ℚ) / 255 ≤ x →
      x ≤ ((max r (max g b) : ℤ) : ℚ) / 255 →
      min r (min g b) ≤ pytrunc (x * 255) ∧ pytrunc (x * 255) ≤ max r (max g b) := by
    intro x h1 h2
    constructor
    · exact le_pytrunc_of_le hm0q (by linarith)
    · exact pytrunc_le_of_le (by linarith) (by linarith)
  have hc1 := chan O.1 hB1.1 hB1.2
  have hc2 := chan O.2.1 hB2.1 hB2.2
  have hc3 := chan O.2.2 hB3.1 hB3.2
  have exactM : ∀ x : ℚ, x = ((max r (max g b) : ℤ) : ℚ) / 255 →
      pytrunc (x * 255) = max r (max g b) := by
    intro x hx
    rw [hx, div_mul_cancel₀ _ (by norm_num : (255 : ℚ) ≠ 0), pytrunc_intCast]
  have exactm : ∀ x : ℚ, x = ((min r (min g b) : ℤ) : ℚ) / 255 →
      pytrunc (x * 255) = min r (min g b) := by
    intro x hx
    rw [hx, div_mul_cancel₀ _ (by norm_num : (255 : ℚ) ≠ 0), pytrunc_intCast]
  have hattM : ((pytrunc (O.1 * 255) : ℤ) : ℚ) = ((max r (max g b) : ℤ) : ℚ) ∨
      ((pytrunc (O.2.1 * 255) : ℤ) : ℚ) = ((max r (max g b) : ℤ) : ℚ) ∨
      ((pytrunc (O.2.2 * 255) : ℤ) : ℚ) = ((max r (max g b) : ℤ) : ℚ) := by
    rcases max3_cases hmax with h | h | h
    · exact Or.inl (by exact_mod_cast exactM _ h)
    · exact Or.inr (Or.inl (by exact_mod_cast exactM _ h))
    · exact Or.inr (Or.inr (by exact_mod_cast exactM _ h))
  have hattm : ((pytrunc (O.1 * 255) : ℤ) : ℚ) = ((min r (min g b) : ℤ) : ℚ) ∨
      ((pytrunc (O.2.1 * 255) : ℤ) : ℚ) = ((min r (min g b) : ℤ) : ℚ) ∨
      ((pytrunc (O.2.2 * 255) : ℤ) : ℚ) = ((min r (min g b) : ℤ) : ℚ) := by
    rcases min3_cases hmin with h | h | h
    · exact Or.inl (by exact_mod_cast exactm _ h)
    · exact Or.inr (Or.inl (by exact_mod_cast exactm _ h))
    · exact Or.inr (Or.inr (by exact_mod_cast exactm _ h))
  unfold extremesOk
  dsimp only
  refine ⟨?_, ?_, ?_, ?_, ?_⟩
  · exact max3_eq (by exact_mod_cast hc1.2) (by exact_mod_cast hc2.2)
      (by exact_mod_cast hc3.2) hattM
  · exact min3_eq (by exact_mod_cast hc1.1) (by exact_mod_cast hc2.1)
      (by exact_mod_cast hc3.1) hattm
  · exact ⟨by exact_mod_cast hc1.1, by exact_mod_cast hc1.2⟩
  · exact ⟨by exact_mod_cast hc2.1, by exact_mod_cast hc2.2⟩
  · exact ⟨by exact_mod_cast hc3.1, by exact_mod_cast hc3.2⟩


/-- **C8** (amended).  For every valid RGB color, `RGB→HSV→RGB` and
`RGB→HLS→RGB` reproduce the maximum and minimum channel values exactly, and
every round-tripped channel lies between the original minimum and maximum.
The stated per-channel bound of ±1 does not hold — the hue is truncated to an
integer degree, which can shift a middle channel by several units. -/
theorem C8_roundtrip_preserves_extremes (r g b : ℤ) (hr : 0 ≤ r ∧ r ≤ 255)
    (hg : 0 ≤ g ∧ g ≤ 255) (hb : 0 ≤ b ∧ b ≤ 255) :
    extremesOk (hsvRoundTrip r g b) r g b ∧ extremesOk (hlsRoundTrip r g b) r g b := by
  have hr0 : (0 : ℚ) ≤ (r : ℚ) / 255 := by
    have : (0 : ℚ) ≤ (r : ℚ) := by exact_mod_cast hr.1
    linarith
  have hr1 : (r : ℚ) / 255 ≤ 1 := by
    have : (r : ℚ) ≤ 255 := by exact_mod_cast hr.2
    linarith
  have hg0 : (0 : ℚ) ≤ (g : ℚ) / 255 := by
    have : (0 : ℚ) ≤ (g : ℚ) := by exact_mod_cast hg.1
    linarith
  have hg1 : (g : ℚ) / 255 ≤ 1 := by
    have : (g : ℚ) ≤ 255 := by exact_mod_cast hg.2
    linarith
  have hb0 : (0 : ℚ) ≤ (b : ℚ) / 255 := by
    have : (0 : ℚ) ≤ (b : ℚ) := by exact_mod_cast hb.1
    linarith
  have hb1 : (b : ℚ) / 255 ≤ 1 := by
    have : (b : ℚ) ≤ 255 := by exact_mod_cast hb.2
    linarith
  constructor
  · exact roundtrip_scale r g b hr hg hb _
      (hsv_core _ _ _ hr0 hr1 hg0 hg1 hb0 hb1 _ rfl) _ rfl
  · exact roundtrip_scale r g b hr hg hb _
      (hls_core _ _ _ hr0 hr1 hg0 hg1 hb0 hb1 _ rfl) _ rfl

/-- **C8** (counterexample).  `(255, 10, 0)` round-trips to `(255, 8, 0)`
through both HSV and HLS: the green channel moves by 2, violating the claimed
±1 bound. -/
theorem C8_roundtrip_counterexample :
    hsvRoundTrip 255 10 0 = (255, 8, 0) ∧ hlsRoundTrip 255 10 0 = (255, 8, 0) ∧
    ¬ (|(10 : ℚ) - (hsvRoundTrip 255 10 0).2.1| ≤ 1 ∧
       |(10 : ℚ) - (hlsRoundTrip 255 10 0).2.1| ≤ 1) := by
  have h1 : hsvRoundTrip 255 10 0 = (255, 8, 0) := by
    norm_num [hsvRoundTrip, sRGBAColor.as_hsv, HSVColor.as_rgb, rgbToHsv, hsvToRgb,
      pymod, pytrunc, min_def, max_def]
  have h2 : hlsRoundTrip 255 10 0 = (255, 8, 0) := by
    norm_num [hlsRoundTrip, sRGBAColor.as_hls, HLSColor.as_rgb, rgbToHls, hlsToRgb, hlsV,
      pymod, pytrunc, min_def, max_def]
  refine ⟨h1, h2, ?_⟩
  rw [h1, h2]
  norm_num

end C8

/-- **C8** (witness).  The amended round-trip theorem instantiated at the
valid color `(255, 10, 0)`. -/
theorem C8_witness :
    ((0 : ℤ) ≤ 255 ∧ (255 : ℤ) ≤ 255) ∧ ((0 : ℤ) ≤ 10 ∧ (10 : ℤ) ≤ 255) ∧
      ((0 : ℤ) ≤ 0 ∧ (0 : ℤ) ≤ 255) ∧
      (extremesOk (hsvRoundTrip 255 10 0) 255 10 0 ∧
        extremesOk (hlsRoundTrip 255 10 0) 255 10 0) :=
  ⟨⟨by norm_num, by norm_num⟩, ⟨by norm_num, by norm_num⟩,
    ⟨by norm_num, by norm_num⟩,
    C8_roundtrip_preserves_extremes 255 10 0 (by norm_num) (by norm_num)
      (by norm_num)⟩
